import Mathlib

/-!
Shallow embedding of `src/src-tauri/src/permission_prompt.rs` (the Permission
Broker): a per-session HTTP endpoint holding a pending-prompt table of oneshot
senders, plus registry operations `start_server`, `stop_server`, `rekey_server`
and `resolve_prompt`, and the request handler `handle_permission_prompt`.

Concurrency is modelled as an explicit global state together with atomic step
functions, one per lock-protected critical section of the Rust code:
  - `handle_insert`   : the handler's insertion of a fresh oneshot sender
                        (`pending.insert(prompt_id, tx)` under the pending lock);
  - `handle_emit`     : the handler's read of the shared session-id cell and the
                        two Tauri event emissions;
  - `handle_deliver`  : the handler resuming from `rx.await` with a value
                        (`Ok(Ok(resp))` branch);
  - `timeout_fire`    : the 300-second timer elapsing, or the sender having been
                        dropped — the receiver side of the oneshot is dropped at
                        this instant, before the pending lock is reacquired;
  - `timeout_cleanup` : the body of the handler's `_` branch: remove the prompt
                        from the table and return the synthesized deny;
  - `resolve_prompt`, `stop_server`, `rekey_server`, `start_server` as in the
                        source, each one critical section.

`tokio::sync::oneshot` channels are modelled as `Slot`s in a heap: the sender is
`held` while it sits in a pending table, becomes `sent r` on a successful
`tx.send(r)`, and `dropped` when it is discarded without a value (table clear,
failed send). `receiverAlive` records whether the handler's `rx` still exists;
`tokio::time::timeout` polls the inner future before the timer, so a buffered
value always wins over a simultaneous timeout.

Endpoint objects live in a heap (`endpoints`) separate from the registry map,
because the axum handler owns `Arc` clones of the pending table and session-id
cell: removing a registry entry (stop, or a rekey displacing an occupied target
id) does not destroy the tables the in-flight handlers operate on.
-/

/-- Mirror of `serde_json::Value`: an opaque JSON payload carried through
the broker unchanged. -/
inductive Json where
  | null : Json
  | bool (b : Bool) : Json
  | num (n : Int) : Json
  | str (s : String) : Json
deriving DecidableEq, Repr

/-- `PermissionRequest`: the inbound body of the single POST route. -/
structure PermissionRequest where
  tool_use_id : String
  tool_name : String
  input : Json
deriving DecidableEq, Repr

/-- `PermissionResponse`: `behavior` is a plain `String` in the source, with
optional `updatedInput` and `message` fields. -/
structure PermissionResponse where
  behavior : String
  updated_input : Option Json
  message : Option String
deriving DecidableEq, Repr

/-- `PermissionPromptEvent`: the payload emitted to the frontend. -/
structure PermissionPromptEvent where
  prompt_id : String
  session_id : String
  tool_name : String
  input : Json
deriving DecidableEq, Repr

/-- State of the sender half of a `oneshot` channel. -/
inductive SenderSt where
  | held : SenderSt
  | sent (resp : PermissionResponse) : SenderSt
  | dropped : SenderSt
deriving DecidableEq, Repr

/-- A `oneshot::channel::<PermissionResponse>()`: sender state plus whether the
receiver (the suspended handler's `rx`) still exists. -/
structure Slot where
  sender : SenderSt
  receiverAlive : Bool
deriving DecidableEq, Repr

/-- One `PermissionServerEntry`ʼs shared innards: the data reachable through the
`Arc`s (pending table, session-id cell) together with the per-entry fields.
The pending table maps prompt ids to slot indices in the global slot heap. -/
structure EndpointObj where
  port : Nat
  pending : List (String × Nat)
  sessionId : String
  mcp_config_path : String
  mcp_script_path : String
  shutdownSent : Bool
deriving DecidableEq, Repr

/-- Global state: endpoint-object heap, the registry map from session id to
endpoint index (`PermissionServerRegistry.servers`), the oneshot slot heap, the
list of emitted Tauri events (channel name, payload) and the set of generated
temp files currently existing on disk. -/
structure SysState where
  endpoints : List EndpointObj
  registry : List (String × Nat)
  slots : List Slot
  events : List (String × PermissionPromptEvent)
  files : List String
deriving DecidableEq, Repr

/-! ### Map and heap helpers

`HashMap` is modelled as an association list with unique keys: `insertA`
replaces any existing binding (as `HashMap::insert` does), `eraseA` removes it
(as `HashMap::remove`). The heaps are plain lists addressed by index. -/

def lookupA {α : Type} : List (String × α) → String → Option α
  | [], _ => none
  | p :: rest, k => if p.1 = k then some p.2 else lookupA rest k

def eraseA {α : Type} (m : List (String × α)) (k : String) : List (String × α) :=
  m.filter (fun p => p.1 ≠ k)

def insertA {α : Type} (m : List (String × α)) (k : String) (v : α) : List (String × α) :=
  (k, v) :: eraseA m k

def getIdx {α : Type} : List α → Nat → Option α
  | [], _ => none
  | a :: _, 0 => some a
  | _ :: rest, n + 1 => getIdx rest n

def setIdx {α : Type} : List α → Nat → α → List α
  | [], _, _ => []
  | _ :: rest, 0, b => b :: rest
  | a :: rest, n + 1, b => a :: setIdx rest n b

/-! ### Error messages, verbatim from the source -/

def sessionNotFoundMsg (session_id : String) : String :=
  "No permission server for session \x27" ++ session_id ++ "\x27"

def promptNotFoundMsg (prompt_id : String) : String :=
  "No pending prompt \x27" ++ prompt_id ++ "\x27"

def receiverDroppedMsg : String := "Receiver already dropped"

/-- The synthesized decision of the handler's timeout / closed-channel branch. -/
def timeoutDeny : PermissionResponse :=
  { behavior := "deny", updated_input := none, message := some "Permission prompt timed out" }

/-! ### Operations -/

/-- `start_server`: allocate a fresh endpoint object (empty pending table,
shared session-id cell initialized to `session_id`, empty mcp paths, shutdown
not signalled) and register it under `session_id`. The bound port is an input
(the OS chooses it); bind failure is surfaced before any of this state exists,
so it is outside the state transition. Returns the new endpoint's heap index. -/
def start_server (st : SysState) (session_id : String) (port : Nat) : SysState × Nat :=
  let eidx := st.endpoints.length
  let ep : EndpointObj :=
    { port := port, pending := [], sessionId := session_id,
      mcp_config_path := "", mcp_script_path := "", shutdownSent := false }
  ({ st with endpoints := st.endpoints ++ [ep],
             registry := insertA st.registry session_id eidx }, eidx)

/-- `generate_mcp_files`: write the MCP script and config to temp files named
after the session id; returns `(config_path, script_path)`. -/
def generate_mcp_files (st : SysState) (session_id : String) : SysState × String × String :=
  let script_path := "opcode-mcp-server-" ++ session_id ++ ".js"
  let config_path := "opcode-mcp-" ++ session_id ++ ".json"
  let files1 := if script_path ∈ st.files then st.files else st.files ++ [script_path]
  let files2 := if config_path ∈ files1 then files1 else files1 ++ [config_path]
  ({ st with files := files2 }, config_path, script_path)

/-- `set_mcp_paths`: record the generated file paths in the registry entry so
`stop_server` can clean them up. No-op on an unknown session. -/
def set_mcp_paths (st : SysState) (session_id : String)
    (config_path script_path : String) : SysState :=
  match lookupA st.registry session_id with
  | none => st
  | some eidx =>
    match getIdx st.endpoints eidx with
    | none => st
    | some ep =>
      let ep1 := { ep with mcp_config_path := config_path, mcp_script_path := script_path }
      { st with endpoints := setIdx st.endpoints eidx ep1 }

/-- First critical section of `handle_permission_prompt`: create the oneshot
channel and insert its sender into the pending table under the fresh
`prompt_id` (a broker-generated UUID v4). If — astronomically unlikely — the id
already had an entry, `HashMap::insert` replaces it and drops the old sender.
`eidx` is the endpoint object whose `Arc`s this handler's `HttpState` holds.
Returns the new slot's heap index. -/
def handle_insert (st : SysState) (eidx : Nat) (prompt_id : String) : SysState × Nat :=
  let sidx := st.slots.length
  let slots1 := st.slots ++ [{ sender := SenderSt.held, receiverAlive := true }]
  match getIdx st.endpoints eidx with
  | none => ({ st with slots := slots1 }, sidx)
  | some ep =>
    let slots2 :=
      match lookupA ep.pending prompt_id with
      | some oldSidx =>
        match getIdx slots1 oldSidx with
        | some oldSl => setIdx slots1 oldSidx { oldSl with sender := SenderSt.dropped }
        | none => slots1
      | none => slots1
    let ep1 := { ep with pending := insertA ep.pending prompt_id sidx }
    ({ st with endpoints := setIdx st.endpoints eidx ep1, slots := slots2 }, sidx)

/-- Second critical section of the handler: read the shared session-id cell
(at emission time, not request-arrival time) and emit the session-scoped and
the generic Tauri events. Emission failures are ignored in the source; here
both events are recorded. -/
def handle_emit (st : SysState) (eidx : Nat) (prompt_id : String)
    (req : PermissionRequest) : SysState :=
  match getIdx st.endpoints eidx with
  | none => st
  | some ep =>
    let ev : PermissionPromptEvent :=
      { prompt_id := prompt_id, session_id := ep.sessionId,
        tool_name := req.tool_name, input := req.input }
    { st with events :=
        st.events ++ [("permission-prompt:" ++ ep.sessionId, ev), ("permission-prompt", ev)] }

/-- The handler resuming from `tokio::time::timeout(300s, rx).await` with
`Ok(Ok(resp))`: a value was sent into the oneshot. The receiver is consumed and
the response is returned as HTTP 200 (`Ok(Json(resp))`). `none` when no value
is buffered or the handler has already resumed. The reply type mirrors the
Rust `Result<Json<PermissionResponse>, StatusCode>`. -/
def handle_deliver (st : SysState) (sidx : Nat) :
    Option (SysState × Except Nat PermissionResponse) :=
  match getIdx st.slots sidx with
  | none => none
  | some sl =>
    match sl.sender with
    | SenderSt.sent r =>
      if sl.receiverAlive then
        some ({ st with slots := setIdx st.slots sidx { sl with receiverAlive := false } },
              Except.ok r)
      else none
    | _ => none

/-- Whether the handler's await can resume through the `_` branch: the receiver
still exists and either the sender was dropped without a value (`Ok(Err(_))`,
immediately) or no value is buffered and the 300-second timer has elapsed
(`Err(Elapsed)`). A buffered value is polled before the timer, so `sent` never
takes this branch. -/
def timeout_fireable (st : SysState) (sidx : Nat) (elapsed : Bool) : Bool :=
  match getIdx st.slots sidx with
  | none => false
  | some sl =>
    sl.receiverAlive &&
      (match sl.sender with
       | SenderSt.held => elapsed
       | SenderSt.sent _ => false
       | SenderSt.dropped => true)

/-- The instant the `_` branch is taken: the timeout future resolves and `rx`
is dropped — before the handler reacquires the pending lock. A `resolve_prompt`
interleaved after this point finds the receiver gone. -/
def timeout_fire (st : SysState) (sidx : Nat) : SysState :=
  match getIdx st.slots sidx with
  | none => st
  | some sl =>
    { st with slots := setIdx st.slots sidx { sl with receiverAlive := false } }

/-- Body of the handler's `_` branch: lock the pending table, remove this
prompt's entry, and return the synthesized deny as HTTP 200. -/
def timeout_cleanup (st : SysState) (eidx : Nat) (prompt_id : String) :
    SysState × Except Nat PermissionResponse :=
  match getIdx st.endpoints eidx with
  | none => (st, Except.ok timeoutDeny)
  | some ep =>
    let ep1 := { ep with pending := eraseA ep.pending prompt_id }
    ({ st with endpoints := setIdx st.endpoints eidx ep1 }, Except.ok timeoutDeny)

/-- `resolve_prompt`: look the session up in the registry
(`SessionNotFound` error on a miss), remove the prompt's sender from the
pending table (`PromptNotFound` error on a miss), then `tx.send(response)` —
which fails with "Receiver already dropped" when the handler's receiver is
gone, the removal standing either way. -/
def resolve_prompt (st : SysState) (session_id prompt_id : String)
    (response : PermissionResponse) : SysState × Except String Unit :=
  match lookupA st.registry session_id with
  | none => (st, Except.error (sessionNotFoundMsg session_id))
  | some eidx =>
    match getIdx st.endpoints eidx with
    | none => (st, Except.error (sessionNotFoundMsg session_id))
    | some ep =>
      match lookupA ep.pending prompt_id with
      | none => (st, Except.error (promptNotFoundMsg prompt_id))
      | some sidx =>
        let ep1 := { ep with pending := eraseA ep.pending prompt_id }
        let st1 := { st with endpoints := setIdx st.endpoints eidx ep1 }
        match getIdx st1.slots sidx with
        | none => (st1, Except.error receiverDroppedMsg)
        | some sl =>
          if sl.receiverAlive then
            ({ st1 with slots := setIdx st1.slots sidx { sl with sender := SenderSt.sent response } },
             Except.ok ())
          else
            ({ st1 with slots := setIdx st1.slots sidx { sl with sender := SenderSt.dropped } },
             Except.error receiverDroppedMsg)

/-- `pending.clear()` of `stop_server`: every sender held in the table is
dropped without a value. -/
def clearPending (slots : List Slot) (pending : List (String × Nat)) : List Slot :=
  pending.foldl
    (fun acc p =>
      match getIdx acc p.2 with
      | some sl => setIdx acc p.2 { sl with sender := SenderSt.dropped }
      | none => acc)
    slots

/-- `stop_server`: remove the registry entry (no-op when the session is
unknown); signal shutdown on the watch channel, clear the pending table
(dropping every held sender, which unblocks the waiting handlers), and delete
the generated temp files. -/
def stop_server (st : SysState) (session_id : String) : SysState :=
  match lookupA st.registry session_id with
  | none => st
  | some eidx =>
    let registry1 := eraseA st.registry session_id
    match getIdx st.endpoints eidx with
    | none => { st with registry := registry1 }
    | some ep =>
      let ep1 := { ep with shutdownSent := true, pending := ([] : List (String × Nat)) }
      { st with
          registry := registry1,
          endpoints := setIdx st.endpoints eidx ep1,
          slots := clearPending st.slots ep.pending,
          files := st.files.filter
            (fun f => f ≠ ep.mcp_config_path && f ≠ ep.mcp_script_path) }

/-- `rekey_server`: remove the entry under `old_id` (no-op when unknown),
overwrite the shared session-id cell with `new_id`, and re-insert the same
entry under `new_id` (`HashMap::insert` silently replaces any entry already
registered there). Port, pending table, slot heap, shutdown switch, file paths
and files on disk are untouched. -/
def rekey_server (st : SysState) (old_id new_id : String) : SysState :=
  match lookupA st.registry old_id with
  | none => st
  | some eidx =>
    let registry1 := eraseA st.registry old_id
    match getIdx st.endpoints eidx with
    | none => { st with registry := insertA registry1 new_id eidx }
    | some ep =>
      let ep1 := { ep with sessionId := new_id }
      { st with
          endpoints := setIdx st.endpoints eidx ep1,
          registry := insertA registry1 new_id eidx }

/-! ### Lemmas about the map and heap helpers -/

theorem lookupA_insertA_self {α : Type} (m : List (String × α)) (k : String) (v : α) :
    lookupA (insertA m k v) k = some v := by
  simp [insertA, lookupA]

theorem lookupA_eraseA_self {α : Type} (m : List (String × α)) (k : String) :
    lookupA (eraseA m k) k = none := by
  induction m with
  | nil => rfl
  | cons p rest ih =>
    by_cases h : p.1 = k
    · simpa [eraseA, List.filter_cons, h] using ih
    · simpa [eraseA, List.filter_cons, lookupA, h] using ih

theorem lookupA_eraseA_ne {α : Type} (m : List (String × α)) (k k' : String)
    (h : k' ≠ k) : lookupA (eraseA m k) k' = lookupA m k' := by
  induction m with
  | nil => rfl
  | cons p rest ih =>
    by_cases hp : p.1 = k
    · have hk : ¬ k = k' := fun hc => h hc.symm
      simpa [eraseA, List.filter_cons, lookupA, hp, hk] using ih
    · by_cases hp' : p.1 = k'
      · simp [eraseA, List.filter_cons, lookupA, hp, hp', h]
      · simpa [eraseA, List.filter_cons, lookupA, hp, hp'] using ih

theorem lookupA_insertA_ne {α : Type} (m : List (String × α)) (k k' : String) (v : α)
    (h : k' ≠ k) : lookupA (insertA m k v) k' = lookupA m k' := by
  have hk : ¬ k = k' := fun hc => h hc.symm
  simp [insertA, lookupA, hk, lookupA_eraseA_ne m k k' h]

theorem length_setIdx {α : Type} (l : List α) (n : Nat) (b : α) :
    (setIdx l n b).length = l.length := by
  induction l generalizing n with
  | nil => rfl
  | cons a rest ih =>
    cases n with
    | zero => rfl
    | succ m => simpa [setIdx] using ih m

theorem getIdx_lt_length {α : Type} (l : List α) (n : Nat) (a : α)
    (h : getIdx l n = some a) : n < l.length := by
  induction l generalizing n with
  | nil => simp [getIdx] at h
  | cons x rest ih =>
    cases n with
    | zero => simp
    | succ m =>
      have := ih m h
      simp only [List.length_cons]
      omega

theorem getIdx_setIdx_self {α : Type} (l : List α) (n : Nat) (b : α)
    (h : n < l.length) : getIdx (setIdx l n b) n = some b := by
  induction l generalizing n with
  | nil => simp at h
  | cons a rest ih =>
    cases n with
    | zero => rfl
    | succ m =>
      have : m < rest.length := by simpa using Nat.lt_of_succ_lt_succ h
      simpa [setIdx, getIdx] using ih m this

theorem getIdx_setIdx_ne {α : Type} (l : List α) (n m : Nat) (b : α)
    (h : m ≠ n) : getIdx (setIdx l n b) m = getIdx l m := by
  induction l generalizing n m with
  | nil => rfl
  | cons a rest ih =>
    cases n with
    | zero =>
      cases m with
      | zero => exact absurd rfl h
      | succ j => rfl
    | succ i =>
      cases m with
      | zero => rfl
      | succ j =>
        have : j ≠ i := fun hc => h (by rw [hc])
        simpa [setIdx, getIdx] using ih i j this

theorem getIdx_append_last {α : Type} (l : List α) (a : α) :
    getIdx (l ++ [a]) l.length = some a := by
  induction l with
  | nil => rfl
  | cons x rest ih => simpa [getIdx] using ih

theorem getIdx_append_lt {α : Type} (l : List α) (a : α) (n : Nat)
    (h : n < l.length) : getIdx (l ++ [a]) n = getIdx l n := by
  induction l generalizing n with
  | nil => simp at h
  | cons x rest ih =>
    cases n with
    | zero => rfl
    | succ m =>
      have : m < rest.length := by simpa using Nat.lt_of_succ_lt_succ h
      simpa [getIdx] using ih m this

theorem clearPending_cons (slots : List Slot) (p : String × Nat)
    (rest : List (String × Nat)) :
    clearPending slots (p :: rest) =
      clearPending
        (match getIdx slots p.2 with
         | some sl => setIdx slots p.2 { sl with sender := SenderSt.dropped }
         | none => slots)
        rest := rfl

theorem length_clearPending (slots : List Slot) (l : List (String × Nat)) :
    (clearPending slots l).length = slots.length := by
  induction l generalizing slots with
  | nil => rfl
  | cons p rest ih =>
    rw [clearPending_cons]
    cases h : getIdx slots p.2 with
    | none => simpa using ih slots
    | some sl =>
      have := ih (setIdx slots p.2 { sl with sender := SenderSt.dropped })
      simpa [length_setIdx] using this

theorem clearPending_getIdx (l : List (String × Nat)) (slots : List Slot)
    (j : Nat) (sl : Slot) (h : getIdx slots j = some sl) :
    getIdx (clearPending slots l) j =
      some (if j ∈ l.map Prod.snd then { sl with sender := SenderSt.dropped } else sl) := by
  induction l generalizing slots sl with
  | nil => simpa [clearPending] using h
  | cons p rest ih =>
    rw [clearPending_cons]
    by_cases hj : j = p.2
    · have h2 : getIdx slots p.2 = some sl := hj ▸ h
      have hlt : p.2 < slots.length := getIdx_lt_length _ _ _ h2
      have hset : getIdx (setIdx slots p.2 { sl with sender := SenderSt.dropped }) j
          = some { sl with sender := SenderSt.dropped } := by
        rw [hj]; exact getIdx_setIdx_self _ _ _ hlt
      have hrec := ih (setIdx slots p.2 { sl with sender := SenderSt.dropped })
        { sl with sender := SenderSt.dropped } hset
      simp only [h2]
      rw [hrec]
      have hmem : j ∈ (p :: rest).map Prod.snd := by
        simp [List.map_cons, hj]
      by_cases hr : j ∈ rest.map Prod.snd <;> simp [hr, hmem, hj]
    · cases h2 : getIdx slots p.2 with
      | none =>
        simp only [h2]
        rw [ih slots sl h]
        exact congrArg some (if_congr (by simp [List.map_cons, List.mem_cons, hj]) rfl rfl)
      | some sl2 =>
        simp only [h2]
        have h' : getIdx (setIdx slots p.2 { sl2 with sender := SenderSt.dropped }) j
            = some sl := by
          rw [getIdx_setIdx_ne _ _ _ _ hj]; exact h
        rw [ih _ sl h']
        exact congrArg some (if_congr (by simp [List.map_cons, List.mem_cons, hj]) rfl rfl)

theorem lookupA_some_mem {α : Type} (m : List (String × α)) (k : String) (v : α)
    (h : lookupA m k = some v) : (k, v) ∈ m := by
  induction m with
  | nil => simp [lookupA] at h
  | cons p rest ih =>
    by_cases hp : p.1 = k
    · simp [lookupA, hp] at h
      have hpq : p = (k, v) := by
        cases p with
        | mk a b =>
          simp at hp h
          simp [hp, h]
      rw [← hpq]
      exact List.mem_cons_self _ _
    · simp [lookupA, hp] at h
      exact List.mem_cons_of_mem _ (ih h)

theorem lookupA_mem_keys {α : Type} (m : List (String × α)) (k : String) (v : α)
    (h : lookupA m k = some v) : v ∈ m.map Prod.snd := by
  exact List.mem_map.mpr ⟨(k, v), lookupA_some_mem m k v h, rfl⟩

theorem mem_eraseA {α : Type} (m : List (String × α)) (k : String) (q : String × α) :
    q ∈ eraseA m k ↔ q ∈ m ∧ ¬ q.1 = k := by
  simp [eraseA, List.mem_filter]

theorem mem_insertA {α : Type} (m : List (String × α)) (k : String) (v : α) (q : String × α) :
    q ∈ insertA m k v ↔ q = (k, v) ∨ (q ∈ m ∧ ¬ q.1 = k) := by
  simp [insertA, mem_eraseA]

theorem not_mem_keys_eraseA {α : Type} (m : List (String × α)) (k : String) :
    ¬ k ∈ (eraseA m k).map Prod.fst := by
  intro h
  rcases List.mem_map.mp h with ⟨q, hq, hk⟩
  exact ((mem_eraseA m k q).mp hq).2 hk

theorem keys_nodup_eraseA {α : Type} (m : List (String × α)) (k : String)
    (h : (m.map Prod.fst).Nodup) : ((eraseA m k).map Prod.fst).Nodup := by
  have hsub : (eraseA m k).Sublist m := List.filter_sublist m
  exact (hsub.map Prod.fst).nodup h

theorem keys_nodup_insertA {α : Type} (m : List (String × α)) (k : String) (v : α)
    (h : (m.map Prod.fst).Nodup) : ((insertA m k v).map Prod.fst).Nodup := by
  simp only [insertA, List.map_cons]
  exact List.nodup_cons.mpr ⟨not_mem_keys_eraseA m k, keys_nodup_eraseA m k h⟩

theorem lookupA_of_mem_nodup {α : Type} (m : List (String × α)) (q : String × α)
    (hm : q ∈ m) (h : (m.map Prod.fst).Nodup) : lookupA m q.1 = some q.2 := by
  induction m with
  | nil => simp at hm
  | cons p rest ih =>
    rcases List.mem_cons.mp hm with hq | hq
    · simp [lookupA, hq]
    · have hnd := List.nodup_cons.mp h
      have hne : ¬ p.1 = q.1 := by
        intro hc
        exact hnd.1 (List.mem_map.mpr ⟨q, hq, hc.symm⟩)
      simp [lookupA, hne]
      exact ih hq hnd.2

theorem getIdx_append_some {α : Type} (l : List α) (a : α) (e : Nat) (x : α)
    (h : getIdx (l ++ [a]) e = some x) :
    getIdx l e = some x ∨ (e = l.length ∧ x = a) := by
  induction l generalizing e with
  | nil =>
    cases e with
    | zero => right; simp [getIdx] at h; simp [h]
    | succ m => simp [getIdx] at h
  | cons y rest ih =>
    cases e with
    | zero => left; simpa [getIdx] using h
    | succ m =>
      rcases ih m h with h1 | h1
      · left; simpa [getIdx] using h1
      · right; simp [h1]

/-! ### Concrete states used to instantiate the theorems -/

/-- The empty broker state: no endpoints, no registry entries, no slots. -/
def st0 : SysState :=
  { endpoints := [], registry := [], slots := [], events := [], files := [] }

/-- Session "A" started at port 4000 (endpoint index 0). -/
def stA : SysState := (start_server st0 "A" 4000).1

/-- A request body used in examples. -/
def reqW : PermissionRequest :=
  { tool_use_id := "t1", tool_name := "bash", input := Json.null }

/-- One approval request handled by session "A": prompt "p1" pending at slot 0. -/
def stAP : SysState := (handle_insert stA 0 "p1").1

/-- Sessions "A" and "B" (endpoints 0 and 1), prompt "p1" pending only in "A". -/
def stABP : SysState := (handle_insert (start_server stA "B" 4001).1 0 "p1").1

/-- An allow decision used in examples. -/
def allowW : PermissionResponse :=
  { behavior := "allow", updated_input := none, message := none }

/-- A deny decision used in examples. -/
def denyW : PermissionResponse :=
  { behavior := "deny", updated_input := none, message := some "no" }

/-! ### Claim theorems -/

/-- C8: `stop_server` on an unregistered session id and `rekey_server` on an
unregistered old id both return with the state — registry, every endpoint's
pending table and session identifier, and the generated files — completely
unchanged. -/
theorem stop_rekey_unknown_noop (st : SysState) (session_id old_id new_id : String)
    (h1 : lookupA st.registry session_id = none)
    (h2 : lookupA st.registry old_id = none) :
    stop_server st session_id = st ∧ rekey_server st old_id new_id = st := by
  constructor
  · simp [stop_server, h1]
  · simp [rekey_server, h2]

/-- Witness for C8 at a concrete state: session "ghost" is not registered in
`stA`, and both operations leave the state untouched. -/
theorem stop_rekey_unknown_noop_witness :
    lookupA stA.registry "ghost" = none ∧
    (stop_server stA "ghost" = stA ∧ rekey_server stA "ghost" "x" = stA) :=
  ⟨by decide, stop_rekey_unknown_noop stA "ghost" "ghost" "x" (by decide) (by decide)⟩

/-- C2: with a prompt pending and its handler suspended, the `_` branch of the
handler's await is enabled once 300 seconds elapse, and immediately (without any
timer) when the sender was dropped without a value; taking it removes the
prompt's table entry and returns HTTP 200 with exactly
`deny / "Permission prompt timed out"` — never an error status — after which a
resolve for that prompt id fails with the PromptNotFound error. -/
theorem timeout_dropped_outcome (st : SysState) (sid pid : String) (eidx sidx : Nat)
    (ep : EndpointObj) (sd : SenderSt) (d : PermissionResponse)
    (hreg : lookupA st.registry sid = some eidx)
    (hep : getIdx st.endpoints eidx = some ep)
    (hpend : lookupA ep.pending pid = some sidx)
    (hslot : getIdx st.slots sidx = some { sender := sd, receiverAlive := true })
    (hsd : sd = SenderSt.held ∨ sd = SenderSt.dropped) :
    timeout_fireable st sidx true = true ∧
    (sd = SenderSt.dropped → timeout_fireable st sidx false = true) ∧
    (timeout_cleanup (timeout_fire st sidx) eidx pid).2 = Except.ok timeoutDeny ∧
    timeoutDeny.behavior = "deny" ∧
    timeoutDeny.message = some "Permission prompt timed out" ∧
    (∃ ep1, getIdx (timeout_cleanup (timeout_fire st sidx) eidx pid).1.endpoints eidx
       = some ep1 ∧ lookupA ep1.pending pid = none) ∧
    (resolve_prompt (timeout_cleanup (timeout_fire st sidx) eidx pid).1 sid pid d).2
      = Except.error (promptNotFoundMsg pid) := by
  have hlt : eidx < st.endpoints.length := getIdx_lt_length _ _ _ hep
  have hfire : timeout_fire st sidx =
      { st with slots := setIdx st.slots sidx { sender := sd, receiverAlive := false } } := by
    simp [timeout_fire, hslot]
  have hres2 : (timeout_cleanup (timeout_fire st sidx) eidx pid).2 = Except.ok timeoutDeny := by
    rw [hfire]; simp [timeout_cleanup, hep]
  have hresEp : getIdx (timeout_cleanup (timeout_fire st sidx) eidx pid).1.endpoints eidx
      = some { ep with pending := eraseA ep.pending pid } := by
    rw [hfire]
    simp [timeout_cleanup, hep]
    exact getIdx_setIdx_self _ _ _ hlt
  have hresReg : (timeout_cleanup (timeout_fire st sidx) eidx pid).1.registry
      = st.registry := by
    rw [hfire]; simp [timeout_cleanup, hep]
  refine ⟨?_, ?_, hres2, rfl, rfl, ⟨_, hresEp, lookupA_eraseA_self _ _⟩, ?_⟩
  · rcases hsd with h | h <;> simp [timeout_fireable, hslot, h]
  · intro h; simp [timeout_fireable, hslot, h]
  · simp [resolve_prompt, hresReg, hreg, hresEp, lookupA_eraseA_self]

/-- The endpoint object of `stAP` at index 0: prompt "p1" pending at slot 0. -/
def epAP : EndpointObj :=
  { port := 4000, pending := [("p1", 0)], sessionId := "A",
    mcp_config_path := "", mcp_script_path := "", shutdownSent := false }

/-- Witness for C2 at a concrete state: prompt "p1" pending in session "A" at
slot 0 with a live receiver, timer elapsed. -/
theorem timeout_dropped_outcome_witness :
    lookupA stAP.registry "A" = some 0 ∧
    (getIdx stAP.endpoints 0 = some epAP ∧ lookupA epAP.pending "p1" = some 0) ∧
    getIdx stAP.slots 0 = some { sender := SenderSt.held, receiverAlive := true } ∧
    (timeout_fireable stAP 0 true = true ∧
     (SenderSt.held = SenderSt.dropped → timeout_fireable stAP 0 false = true) ∧
     (timeout_cleanup (timeout_fire stAP 0) 0 "p1").2 = Except.ok timeoutDeny ∧
     timeoutDeny.behavior = "deny" ∧
     timeoutDeny.message = some "Permission prompt timed out" ∧
     (∃ ep1, getIdx (timeout_cleanup (timeout_fire stAP 0) 0 "p1").1.endpoints 0
        = some ep1 ∧ lookupA ep1.pending "p1" = none) ∧
     (resolve_prompt (timeout_cleanup (timeout_fire stAP 0) 0 "p1").1 "A" "p1" denyW).2
       = Except.error (promptNotFoundMsg "p1")) :=
  ⟨by decide, ⟨by decide, by decide⟩, by decide,
   timeout_dropped_outcome stAP "A" "p1" 0 0 epAP SenderSt.held denyW
     (by decide) (by decide) (by decide) (by decide) (Or.inl rfl)⟩

/-- C9: when the prompt's entry is still in the table but the handler's
receiver is already gone (the window between the timeout firing and the
handler's cleanup), `resolve_prompt` returns the "Receiver already dropped"
error, yet the entry was removed before the send was attempted and is not
restored: the state is changed, and a retried resolve for the same prompt id
fails with the PromptNotFound error. -/
theorem resolve_no_rollback (st : SysState) (sid pid : String) (eidx sidx : Nat)
    (ep : EndpointObj) (sd : SenderSt) (d du : PermissionResponse)
    (hreg : lookupA st.registry sid = some eidx)
    (hep : getIdx st.endpoints eidx = some ep)
    (hpend : lookupA ep.pending pid = some sidx)
    (hslot : getIdx st.slots sidx = some { sender := sd, receiverAlive := false }) :
    (resolve_prompt st sid pid d).2 = Except.error receiverDroppedMsg ∧
    (∃ ep1, getIdx (resolve_prompt st sid pid d).1.endpoints eidx = some ep1 ∧
       lookupA ep1.pending pid = none) ∧
    (resolve_prompt st sid pid d).1 ≠ st ∧
    (resolve_prompt (resolve_prompt st sid pid d).1 sid pid du).2
      = Except.error (promptNotFoundMsg pid) := by
  have hlt : eidx < st.endpoints.length := getIdx_lt_length _ _ _ hep
  have hslot1 : getIdx (setIdx st.endpoints eidx
      { ep with pending := eraseA ep.pending pid }) eidx
      = some { ep with pending := eraseA ep.pending pid } :=
    getIdx_setIdx_self _ _ _ hlt
  have hr : resolve_prompt st sid pid d =
      ({ st with
          endpoints := setIdx st.endpoints eidx { ep with pending := eraseA ep.pending pid },
          slots := setIdx st.slots sidx { sender := SenderSt.dropped, receiverAlive := false } },
       Except.error receiverDroppedMsg) := by
    simp [resolve_prompt, hreg, hep, hpend, hslot]
  have hepAfter : getIdx (resolve_prompt st sid pid d).1.endpoints eidx
      = some { ep with pending := eraseA ep.pending pid } := by
    rw [hr]; exact hslot1
  refine ⟨by rw [hr], ⟨_, hepAfter, lookupA_eraseA_self _ _⟩, ?_, ?_⟩
  · intro hc
    have : getIdx st.endpoints eidx = some { ep with pending := eraseA ep.pending pid } := by
      rw [← hc]; exact hepAfter
    rw [hep] at this
    have hpe : ep.pending = eraseA ep.pending pid :=
      congrArg EndpointObj.pending (Option.some.inj this)
    rw [hpe, lookupA_eraseA_self] at hpend
    exact Option.noConfusion hpend
  · rw [hr]
    simp [resolve_prompt, hreg, hslot1, lookupA_eraseA_self]

/-- Witness for C9 at a concrete state: `stAP` after the timeout fired on slot
0 (receiver dropped, entry still in the table). -/
theorem resolve_no_rollback_witness :
    (lookupA (timeout_fire stAP 0).registry "A" = some 0 ∧
     getIdx (timeout_fire stAP 0).endpoints 0 = some epAP ∧
     lookupA epAP.pending "p1" = some 0 ∧
     getIdx (timeout_fire stAP 0).slots 0
       = some { sender := SenderSt.held, receiverAlive := false }) ∧
    ((resolve_prompt (timeout_fire stAP 0) "A" "p1" allowW).2
       = Except.error receiverDroppedMsg ∧
     (∃ ep1, getIdx (resolve_prompt (timeout_fire stAP 0) "A" "p1" allowW).1.endpoints 0
        = some ep1 ∧ lookupA ep1.pending "p1" = none) ∧
     (resolve_prompt (timeout_fire stAP 0) "A" "p1" allowW).1 ≠ timeout_fire stAP 0 ∧
     (resolve_prompt (resolve_prompt (timeout_fire stAP 0) "A" "p1" allowW).1 "A" "p1" denyW).2
       = Except.error (promptNotFoundMsg "p1")) :=
  ⟨⟨by decide, by decide, by decide, by decide⟩,
   resolve_no_rollback (timeout_fire stAP 0) "A" "p1" 0 0 epAP SenderSt.held allowW denyW
     (by decide) (by decide) (by decide) (by decide)⟩

/-- The `_` branch always replies HTTP 200 with the synthesized deny, whatever
the state. -/
theorem timeout_cleanup_snd (st : SysState) (eidx : Nat) (pid : String) :
    (timeout_cleanup st eidx pid).2 = Except.ok timeoutDeny := by
  cases h : getIdx st.endpoints eidx <;> simp [timeout_cleanup, h]

/-- C1: at-most-once delivery. A first resolve on a pending prompt removes the
table entry and hands exactly its decision to the suspended request; a second
resolve fails with the PromptNotFound error and changes nothing. Racing the
timeout: if the resolve wins, the timer branch is disabled; if the timer fires
first, the resolve errors, nothing is delivered, and the request returns the
timeout deny. In every state at most one of "delivered" and "timed out" is
enabled, and for a live receiver with the timer elapsed at least one is. -/
theorem resolve_at_most_once (st : SysState) (sid pid : String) (eidx sidx : Nat)
    (ep : EndpointObj) (d du : PermissionResponse)
    (hreg : lookupA st.registry sid = some eidx)
    (hep : getIdx st.endpoints eidx = some ep)
    (hpend : lookupA ep.pending pid = some sidx)
    (hslot : getIdx st.slots sidx = some { sender := SenderSt.held, receiverAlive := true }) :
    (resolve_prompt st sid pid d).2 = Except.ok () ∧
    (∃ ep1, getIdx (resolve_prompt st sid pid d).1.endpoints eidx = some ep1 ∧
       lookupA ep1.pending pid = none) ∧
    getIdx (resolve_prompt st sid pid d).1.slots sidx
      = some { sender := SenderSt.sent d, receiverAlive := true } ∧
    (handle_deliver (resolve_prompt st sid pid d).1 sidx).map Prod.snd
      = some (Except.ok d) ∧
    (resolve_prompt (resolve_prompt st sid pid d).1 sid pid du).2
      = Except.error (promptNotFoundMsg pid) ∧
    (resolve_prompt (resolve_prompt st sid pid d).1 sid pid du).1
      = (resolve_prompt st sid pid d).1 ∧
    timeout_fireable (resolve_prompt st sid pid d).1 sidx true = false ∧
    (resolve_prompt (timeout_fire st sidx) sid pid d).2
      = Except.error receiverDroppedMsg ∧
    handle_deliver (timeout_fire st sidx) sidx = none ∧
    (timeout_cleanup (timeout_fire st sidx) eidx pid).2 = Except.ok timeoutDeny ∧
    (∀ st' : SysState, (handle_deliver st' sidx).isSome = true →
       timeout_fireable st' sidx true = false) ∧
    (∀ (st' : SysState) (sl : Slot), getIdx st'.slots sidx = some sl →
       sl.receiverAlive = true →
       (handle_deliver st' sidx).isSome = true ∨ timeout_fireable st' sidx true = true) := by
  have hltE : eidx < st.endpoints.length := getIdx_lt_length _ _ _ hep
  have hltS : sidx < st.slots.length := getIdx_lt_length _ _ _ hslot
  have hr : resolve_prompt st sid pid d =
      ({ st with
          endpoints := setIdx st.endpoints eidx { ep with pending := eraseA ep.pending pid },
          slots := setIdx st.slots sidx { sender := SenderSt.sent d, receiverAlive := true } },
       Except.ok ()) := by
    simp [resolve_prompt, hreg, hep, hpend, hslot]
  have hepR : getIdx (resolve_prompt st sid pid d).1.endpoints eidx
      = some { ep with pending := eraseA ep.pending pid } := by
    rw [hr]; exact getIdx_setIdx_self _ _ _ hltE
  have hslotR : getIdx (resolve_prompt st sid pid d).1.slots sidx
      = some { sender := SenderSt.sent d, receiverAlive := true } := by
    rw [hr]; exact getIdx_setIdx_self _ _ _ hltS
  have hfire : timeout_fire st sidx =
      { st with slots := setIdx st.slots sidx { sender := SenderSt.held, receiverAlive := false } } := by
    simp [timeout_fire, hslot]
  have hslotF : getIdx (timeout_fire st sidx).slots sidx
      = some { sender := SenderSt.held, receiverAlive := false } := by
    rw [hfire]; exact getIdx_setIdx_self _ _ _ hltS
  refine ⟨by rw [hr], ⟨_, hepR, lookupA_eraseA_self _ _⟩, hslotR, ?_, ?_, ?_, ?_, ?_, ?_,
    timeout_cleanup_snd _ _ _, ?_, ?_⟩
  · simp [handle_deliver, hslotR]
  · rw [hr]
    simp [resolve_prompt, hreg, getIdx_setIdx_self _ _ _ hltE, lookupA_eraseA_self]
  · rw [hr]
    simp [resolve_prompt, hreg, getIdx_setIdx_self _ _ _ hltE, lookupA_eraseA_self]
  · simp [timeout_fireable, hslotR]
  · rw [hfire]
    simp [resolve_prompt, hreg, hep, hpend, getIdx_setIdx_self _ _ _ hltS]
  · simp [handle_deliver, hslotF]
  · intro st' hds
    cases h : getIdx st'.slots sidx with
    | none => simp [handle_deliver, h] at hds
    | some sl =>
      cases hsd : sl.sender with
      | held => simp [handle_deliver, h, hsd] at hds
      | dropped => simp [handle_deliver, h, hsd] at hds
      | sent r =>
        cases hra : sl.receiverAlive with
        | false => simp [handle_deliver, h, hsd, hra] at hds
        | true => simp [timeout_fireable, h, hsd]
  · intro st' sl h halive
    cases hsd : sl.sender with
    | held => right; simp [timeout_fireable, h, hsd, halive]
    | dropped => right; simp [timeout_fireable, h, hsd, halive]
    | sent r => left; simp [handle_deliver, h, hsd, halive]

/-- Witness for C1 at a concrete state: prompt "p1" pending in session "A" at
slot 0, resolved with an allow decision, retried with a deny decision. -/
theorem resolve_at_most_once_witness :
    (lookupA stAP.registry "A" = some 0 ∧
     getIdx stAP.endpoints 0 = some epAP ∧
     lookupA epAP.pending "p1" = some 0 ∧
     getIdx stAP.slots 0 = some { sender := SenderSt.held, receiverAlive := true }) ∧
    ((resolve_prompt stAP "A" "p1" allowW).2 = Except.ok () ∧
     (∃ ep1, getIdx (resolve_prompt stAP "A" "p1" allowW).1.endpoints 0 = some ep1 ∧
        lookupA ep1.pending "p1" = none) ∧
     getIdx (resolve_prompt stAP "A" "p1" allowW).1.slots 0
       = some { sender := SenderSt.sent allowW, receiverAlive := true } ∧
     (handle_deliver (resolve_prompt stAP "A" "p1" allowW).1 0).map Prod.snd
       = some (Except.ok allowW) ∧
     (resolve_prompt (resolve_prompt stAP "A" "p1" allowW).1 "A" "p1" denyW).2
       = Except.error (promptNotFoundMsg "p1") ∧
     (resolve_prompt (resolve_prompt stAP "A" "p1" allowW).1 "A" "p1" denyW).1
       = (resolve_prompt stAP "A" "p1" allowW).1 ∧
     timeout_fireable (resolve_prompt stAP "A" "p1" allowW).1 0 true = false ∧
     (resolve_prompt (timeout_fire stAP 0) "A" "p1" allowW).2
       = Except.error receiverDroppedMsg ∧
     handle_deliver (timeout_fire stAP 0) 0 = none ∧
     (timeout_cleanup (timeout_fire stAP 0) 0 "p1").2 = Except.ok timeoutDeny ∧
     (∀ st' : SysState, (handle_deliver st' 0).isSome = true →
        timeout_fireable st' 0 true = false) ∧
     (∀ (st' : SysState) (sl : Slot), getIdx st'.slots 0 = some sl →
        sl.receiverAlive = true →
        (handle_deliver st' 0).isSome = true ∨ timeout_fireable st' 0 true = true)) :=
  ⟨⟨by decide, by decide, by decide, by decide⟩,
   resolve_at_most_once stAP "A" "p1" 0 0 epAP allowW denyW
     (by decide) (by decide) (by decide) (by decide)⟩

/-- The endpoint object of `stABP` at index 1: session "B", no pending prompt. -/
def epB1 : EndpointObj :=
  { port := 4001, pending := [], sessionId := "B",
    mcp_config_path := "", mcp_script_path := "", shutdownSent := false }

/-- C6 counterexample: sessions "A" and "B" are both registered and prompt
"p1" is pending only in "A"; resolving "p1" under "B" fails with the
PromptNotFound error, not the SessionNotFound error the claim states. -/
theorem resolve_cross_session_counterexample :
    (resolve_prompt stABP "B" "p1" allowW).2 = Except.error (promptNotFoundMsg "p1") ∧
    (resolve_prompt stABP "B" "p1" allowW).2 ≠ Except.error (sessionNotFoundMsg "B") := by
  refine ⟨rfl, fun hc => absurd (Except.error.inj hc) (by decide)⟩

/-- C6 (amended): resolving a prompt pending in session A under a different
session identifier B fails without delivering a decision and without touching
A's registry entry, endpoint or pending table — with the SessionNotFound error
when B is not registered, and with the PromptNotFound error when B is
registered but has no such prompt pending. -/
theorem resolve_session_isolation (st : SysState) (sidA sidB pid : String)
    (eidx sidx : Nat) (ep : EndpointObj) (d : PermissionResponse)
    (hreg : lookupA st.registry sidA = some eidx)
    (hep : getIdx st.endpoints eidx = some ep)
    (hpend : lookupA ep.pending pid = some sidx) :
    (lookupA st.registry sidB = none →
       resolve_prompt st sidB pid d = (st, Except.error (sessionNotFoundMsg sidB)) ∧
       lookupA (resolve_prompt st sidB pid d).1.registry sidA = some eidx ∧
       getIdx (resolve_prompt st sidB pid d).1.endpoints eidx = some ep ∧
       lookupA ep.pending pid = some sidx) ∧
    (∀ eidxB epB, lookupA st.registry sidB = some eidxB →
       getIdx st.endpoints eidxB = some epB → lookupA epB.pending pid = none →
       resolve_prompt st sidB pid d = (st, Except.error (promptNotFoundMsg pid)) ∧
       lookupA (resolve_prompt st sidB pid d).1.registry sidA = some eidx ∧
       getIdx (resolve_prompt st sidB pid d).1.endpoints eidx = some ep ∧
       lookupA ep.pending pid = some sidx) := by
  constructor
  · intro h
    have hr : resolve_prompt st sidB pid d = (st, Except.error (sessionNotFoundMsg sidB)) := by
      simp [resolve_prompt, h]
    exact ⟨hr, by rw [hr]; exact hreg, by rw [hr]; exact hep, hpend⟩
  · intro eidxB epB h1 h2 h3
    have hr : resolve_prompt st sidB pid d = (st, Except.error (promptNotFoundMsg pid)) := by
      simp [resolve_prompt, h1, h2, h3]
    exact ⟨hr, by rw [hr]; exact hreg, by rw [hr]; exact hep, hpend⟩

/-- Witness for the amended C6 at a concrete state: "A" and "B" registered,
"p1" pending only in "A". -/
theorem resolve_session_isolation_witness :
    (lookupA stABP.registry "A" = some 0 ∧
     getIdx stABP.endpoints 0 = some epAP ∧
     lookupA epAP.pending "p1" = some 0) ∧
    ((lookupA stABP.registry "B" = none →
       resolve_prompt stABP "B" "p1" allowW = (stABP, Except.error (sessionNotFoundMsg "B")) ∧
       lookupA (resolve_prompt stABP "B" "p1" allowW).1.registry "A" = some 0 ∧
       getIdx (resolve_prompt stABP "B" "p1" allowW).1.endpoints 0 = some epAP ∧
       lookupA epAP.pending "p1" = some 0) ∧
     (∀ eidxB epB, lookupA stABP.registry "B" = some eidxB →
       getIdx stABP.endpoints eidxB = some epB → lookupA epB.pending "p1" = none →
       resolve_prompt stABP "B" "p1" allowW = (stABP, Except.error (promptNotFoundMsg "p1")) ∧
       lookupA (resolve_prompt stABP "B" "p1" allowW).1.registry "A" = some 0 ∧
       getIdx (resolve_prompt stABP "B" "p1" allowW).1.endpoints 0 = some epAP ∧
       lookupA epAP.pending "p1" = some 0)) :=
  ⟨⟨by decide, by decide, by decide⟩,
   resolve_session_isolation stABP "A" "B" "p1" 0 0 epAP allowW
     (by decide) (by decide) (by decide)⟩

/-- A decision whose behavior is neither "allow" nor "deny"; the
`PermissionResponse` type places no constraint on the string. -/
def weirdW : PermissionResponse :=
  { behavior := "frobnicate", updated_input := none, message := none }

/-- C7 counterexample: `resolve_prompt` accepts a decision whose behavior is
"frobnicate" and the suspended handler returns it over HTTP verbatim, so a
response whose behavior is neither "allow" nor "deny" can occur. -/
theorem response_shape_counterexample :
    (resolve_prompt stAP "A" "p1" weirdW).2 = Except.ok () ∧
    (handle_deliver (resolve_prompt stAP "A" "p1" weirdW).1 0).map Prod.snd
      = some (Except.ok weirdW) ∧
    weirdW.behavior ≠ "allow" ∧ weirdW.behavior ≠ "deny" := by
  exact ⟨rfl, rfl, by decide, by decide⟩

/-- C7 (amended): decisions the broker synthesizes itself (timeout or dropped
sender) are exactly the deny shape with the timeout message; a decision
supplied through `resolve_prompt` is delivered to the suspended caller
verbatim, its behavior being whatever string the resolver chose — the response
type does not restrict it to "allow" or "deny". -/
theorem response_shape (st : SysState) (sid pid : String) (eidx sidx : Nat)
    (ep : EndpointObj) (r : PermissionResponse)
    (hreg : lookupA st.registry sid = some eidx)
    (hep : getIdx st.endpoints eidx = some ep)
    (hpend : lookupA ep.pending pid = some sidx)
    (hslot : getIdx st.slots sidx = some { sender := SenderSt.held, receiverAlive := true }) :
    (timeout_cleanup (timeout_fire st sidx) eidx pid).2 = Except.ok timeoutDeny ∧
    timeoutDeny.behavior = "deny" ∧
    timeoutDeny.updated_input = none ∧
    timeoutDeny.message = some "Permission prompt timed out" ∧
    (handle_deliver (resolve_prompt st sid pid r).1 sidx).map Prod.snd
      = some (Except.ok r) := by
  have hltS : sidx < st.slots.length := getIdx_lt_length _ _ _ hslot
  have hr : resolve_prompt st sid pid r =
      ({ st with
          endpoints := setIdx st.endpoints eidx { ep with pending := eraseA ep.pending pid },
          slots := setIdx st.slots sidx { sender := SenderSt.sent r, receiverAlive := true } },
       Except.ok ()) := by
    simp [resolve_prompt, hreg, hep, hpend, hslot]
  have hslotR : getIdx (resolve_prompt st sid pid r).1.slots sidx
      = some { sender := SenderSt.sent r, receiverAlive := true } := by
    rw [hr]; exact getIdx_setIdx_self _ _ _ hltS
  exact ⟨timeout_cleanup_snd _ _ _, rfl, rfl, rfl, by simp [handle_deliver, hslotR]⟩

/-- Witness for the amended C7 at a concrete state: prompt "p1" of session "A"
resolved with the unconstrained decision `weirdW`. -/
theorem response_shape_witness :
    (lookupA stAP.registry "A" = some 0 ∧
     getIdx stAP.endpoints 0 = some epAP ∧
     lookupA epAP.pending "p1" = some 0 ∧
     getIdx stAP.slots 0 = some { sender := SenderSt.held, receiverAlive := true }) ∧
    ((timeout_cleanup (timeout_fire stAP 0) 0 "p1").2 = Except.ok timeoutDeny ∧
     timeoutDeny.behavior = "deny" ∧
     timeoutDeny.updated_input = none ∧
     timeoutDeny.message = some "Permission prompt timed out" ∧
     (handle_deliver (resolve_prompt stAP "A" "p1" weirdW).1 0).map Prod.snd
       = some (Except.ok weirdW)) :=
  ⟨⟨by decide, by decide, by decide, by decide⟩,
   response_shape stAP "A" "p1" 0 0 epAP weirdW
     (by decide) (by decide) (by decide) (by decide)⟩

/-- C4: `rekey_server` on a registered old id moves the registry entry to the
new id and rewrites the endpoint's shared session-identifier field, leaving the
port, pending table, slot heap, file paths and files untouched; a request that
inserted before the rekey but has not yet emitted its notification emits it
with the new session id, and resolve under the new id succeeds. -/
theorem rekey_preserves_flight (st : SysState) (old_id new_id : String) (eidx : Nat)
    (ep : EndpointObj) (pid : String) (sidx : Nat) (req : PermissionRequest)
    (d : PermissionResponse)
    (hne : old_id ≠ new_id)
    (hreg : lookupA st.registry old_id = some eidx)
    (hep : getIdx st.endpoints eidx = some ep)
    (hpend : lookupA ep.pending pid = some sidx)
    (hslot : getIdx st.slots sidx = some { sender := SenderSt.held, receiverAlive := true }) :
    lookupA (rekey_server st old_id new_id).registry new_id = some eidx ∧
    lookupA (rekey_server st old_id new_id).registry old_id = none ∧
    getIdx (rekey_server st old_id new_id).endpoints eidx
      = some { ep with sessionId := new_id } ∧
    (rekey_server st old_id new_id).slots = st.slots ∧
    (rekey_server st old_id new_id).files = st.files ∧
    (rekey_server st old_id new_id).events = st.events ∧
    handle_emit (rekey_server st old_id new_id) eidx pid req
      = { rekey_server st old_id new_id with events := st.events ++
          [("permission-prompt:" ++ new_id,
            { prompt_id := pid, session_id := new_id,
              tool_name := req.tool_name, input := req.input }),
           ("permission-prompt",
            { prompt_id := pid, session_id := new_id,
              tool_name := req.tool_name, input := req.input })] } ∧
    (resolve_prompt (rekey_server st old_id new_id) new_id pid d).2 = Except.ok () := by
  have hltE : eidx < st.endpoints.length := getIdx_lt_length _ _ _ hep
  have hrk : rekey_server st old_id new_id =
      { st with
          endpoints := setIdx st.endpoints eidx { ep with sessionId := new_id },
          registry := insertA (eraseA st.registry old_id) new_id eidx } := by
    simp [rekey_server, hreg, hep]
  have hepR : getIdx (rekey_server st old_id new_id).endpoints eidx
      = some { ep with sessionId := new_id } := by
    rw [hrk]; exact getIdx_setIdx_self _ _ _ hltE
  have hregNew : lookupA (rekey_server st old_id new_id).registry new_id = some eidx := by
    rw [hrk]; exact lookupA_insertA_self _ _ _
  have hev : (rekey_server st old_id new_id).events = st.events := by rw [hrk]
  refine ⟨hregNew, ?_, hepR, by simp [hrk], by simp [hrk], hev, ?_, ?_⟩
  · rw [hrk]
    show lookupA (insertA (eraseA st.registry old_id) new_id eidx) old_id = none
    rw [lookupA_insertA_ne _ _ _ _ hne, lookupA_eraseA_self]
  · simp [handle_emit, hepR, hev]
  · simp [resolve_prompt, hregNew, hepR, hpend]
    rw [show (rekey_server st old_id new_id).slots = st.slots from by rw [hrk]]
    simp [hslot]

/-- Witness for C4 at a concrete state: session "A" with pending prompt "p1"
rekeyed to "R", then emitted against and resolved under "R". -/
theorem rekey_preserves_flight_witness :
    ("A" ≠ "R" ∧
     lookupA stAP.registry "A" = some 0 ∧
     getIdx stAP.endpoints 0 = some epAP ∧
     lookupA epAP.pending "p1" = some 0 ∧
     getIdx stAP.slots 0 = some { sender := SenderSt.held, receiverAlive := true }) ∧
    (lookupA (rekey_server stAP "A" "R").registry "R" = some 0 ∧
     lookupA (rekey_server stAP "A" "R").registry "A" = none ∧
     getIdx (rekey_server stAP "A" "R").endpoints 0
       = some { epAP with sessionId := "R" } ∧
     (rekey_server stAP "A" "R").slots = stAP.slots ∧
     (rekey_server stAP "A" "R").files = stAP.files ∧
     (rekey_server stAP "A" "R").events = stAP.events ∧
     handle_emit (rekey_server stAP "A" "R") 0 "p1" reqW
       = { rekey_server stAP "A" "R" with events := stAP.events ++
           [("permission-prompt:" ++ "R",
             { prompt_id := "p1", session_id := "R",
               tool_name := reqW.tool_name, input := reqW.input }),
            ("permission-prompt",
             { prompt_id := "p1", session_id := "R",
               tool_name := reqW.tool_name, input := reqW.input })] } ∧
     (resolve_prompt (rekey_server stAP "A" "R") "R" "p1" allowW).2 = Except.ok ()) :=
  ⟨⟨by decide, by decide, by decide, by decide, by decide⟩,
   rekey_preserves_flight stAP "A" "R" 0 epAP "p1" 0 reqW allowW
     (by decide) (by decide) (by decide) (by decide) (by decide)⟩

/-- C10: rekeying onto an id that another endpoint already occupies replaces
that registry entry (`HashMap::insert`), keeping at most one endpoint per
identifier; the displaced endpoint gets none of the Stop cleanup — its object,
pending table and oneshot slots are untouched (so its prompts only unblock once
the 300-second timer elapses) and the generated files stay on disk. -/
theorem rekey_overwrites_target (st : SysState) (old_id new_id : String)
    (e1 e2 : Nat) (ep1 ep2 : EndpointObj)
    (hne : old_id ≠ new_id) (hee : e2 ≠ e1)
    (hold : lookupA st.registry old_id = some e1)
    (hnew : lookupA st.registry new_id = some e2)
    (hep1 : getIdx st.endpoints e1 = some ep1)
    (hep2 : getIdx st.endpoints e2 = some ep2)
    (hku : (st.registry.map Prod.fst).Nodup) :
    lookupA (rekey_server st old_id new_id).registry new_id = some e1 ∧
    lookupA (rekey_server st old_id new_id).registry old_id = none ∧
    ((rekey_server st old_id new_id).registry.map Prod.fst).Nodup ∧
    getIdx (rekey_server st old_id new_id).endpoints e2 = some ep2 ∧
    (rekey_server st old_id new_id).slots = st.slots ∧
    (rekey_server st old_id new_id).files = st.files ∧
    (∀ pid sidx, lookupA ep2.pending pid = some sidx →
       getIdx st.slots sidx = some { sender := SenderSt.held, receiverAlive := true } →
       timeout_fireable (rekey_server st old_id new_id) sidx false = false ∧
       timeout_fireable (rekey_server st old_id new_id) sidx true = true) := by
  have hrk : rekey_server st old_id new_id =
      { st with
          endpoints := setIdx st.endpoints e1 { ep1 with sessionId := new_id },
          registry := insertA (eraseA st.registry old_id) new_id e1 } := by
    simp [rekey_server, hold, hep1]
  have hsl : (rekey_server st old_id new_id).slots = st.slots := by rw [hrk]
  refine ⟨?_, ?_, ?_, ?_, hsl, by rw [hrk], ?_⟩
  · rw [hrk]; exact lookupA_insertA_self _ _ _
  · rw [hrk]
    show lookupA (insertA (eraseA st.registry old_id) new_id e1) old_id = none
    rw [lookupA_insertA_ne _ _ _ _ hne, lookupA_eraseA_self]
  · rw [hrk]
    exact keys_nodup_insertA _ _ _ (keys_nodup_eraseA _ _ hku)
  · rw [hrk]
    show getIdx (setIdx st.endpoints e1 { ep1 with sessionId := new_id }) e2 = some ep2
    rw [getIdx_setIdx_ne _ _ _ _ hee]
    exact hep2
  · intro pid sidx hq hsq
    have hfq : getIdx (rekey_server st old_id new_id).slots sidx
        = some { sender := SenderSt.held, receiverAlive := true } := by
      rw [hsl]; exact hsq
    exact ⟨by simp [timeout_fireable, hfq], by simp [timeout_fireable, hfq]⟩

/-- Endpoint 0 of `stA`: session "A", nothing pending. -/
def epA0 : EndpointObj :=
  { port := 4000, pending := [], sessionId := "A",
    mcp_config_path := "", mcp_script_path := "", shutdownSent := false }

/-- Sessions "A" (endpoint 0) and "B" (endpoint 1), prompt "q1" pending in "B"
at slot 0. -/
def stBQ : SysState := (handle_insert (start_server stA "B" 4001).1 1 "q1").1

/-- Endpoint 1 of `stBQ`: session "B" with prompt "q1" pending at slot 0. -/
def epB1Q : EndpointObj :=
  { port := 4001, pending := [("q1", 0)], sessionId := "B",
    mcp_config_path := "", mcp_script_path := "", shutdownSent := false }

/-- Witness for C10 at a concrete state: rekeying "A" onto the occupied id "B"
displaces B's endpoint, which keeps its pending prompt "q1" waiting. -/
theorem rekey_overwrites_target_witness :
    ("A" ≠ "B" ∧ (1 : Nat) ≠ 0 ∧
     lookupA stBQ.registry "A" = some 0 ∧
     lookupA stBQ.registry "B" = some 1 ∧
     getIdx stBQ.endpoints 0 = some epA0 ∧
     getIdx stBQ.endpoints 1 = some epB1Q ∧
     (stBQ.registry.map Prod.fst).Nodup) ∧
    (lookupA (rekey_server stBQ "A" "B").registry "B" = some 0 ∧
     lookupA (rekey_server stBQ "A" "B").registry "A" = none ∧
     ((rekey_server stBQ "A" "B").registry.map Prod.fst).Nodup ∧
     getIdx (rekey_server stBQ "A" "B").endpoints 1 = some epB1Q ∧
     (rekey_server stBQ "A" "B").slots = stBQ.slots ∧
     (rekey_server stBQ "A" "B").files = stBQ.files ∧
     (∀ pid sidx, lookupA epB1Q.pending pid = some sidx →
        getIdx stBQ.slots sidx = some { sender := SenderSt.held, receiverAlive := true } →
        timeout_fireable (rekey_server stBQ "A" "B") sidx false = false ∧
        timeout_fireable (rekey_server stBQ "A" "B") sidx true = true)) :=
  ⟨⟨by decide, by decide, by decide, by decide, by decide, by decide, by decide⟩,
   rekey_overwrites_target stBQ "A" "B" 0 1 epA0 epB1Q
     (by decide) (by decide) (by decide) (by decide) (by decide) (by decide) (by decide)⟩

/-- C3: `stop_server` on a registered session removes it from the registry,
signals shutdown, and clears the pending table, dropping every held sender —
so each still-suspended handler's await unblocks at once (its `_` branch is
enabled with and without the timer) and returns the deny decision — deletes
the session's generated files, and makes any subsequent resolve against the
session fail with the SessionNotFound error. -/
theorem stop_drains_pendings (st : SysState) (sid : String) (eidx : Nat)
    (ep : EndpointObj) (d : PermissionResponse)
    (hreg : lookupA st.registry sid = some eidx)
    (hep : getIdx st.endpoints eidx = some ep) :
    lookupA (stop_server st sid).registry sid = none ∧
    getIdx (stop_server st sid).endpoints eidx
      = some { ep with shutdownSent := true, pending := [] } ∧
    (∀ pid sidx sl, lookupA ep.pending pid = some sidx →
       getIdx st.slots sidx = some sl →
       getIdx (stop_server st sid).slots sidx = some { sl with sender := SenderSt.dropped } ∧
       (sl.receiverAlive = true →
          timeout_fireable (stop_server st sid) sidx false = true) ∧
       (timeout_cleanup (timeout_fire (stop_server st sid) sidx) eidx pid).2
         = Except.ok timeoutDeny) ∧
    ep.mcp_config_path ∉ (stop_server st sid).files ∧
    ep.mcp_script_path ∉ (stop_server st sid).files ∧
    (∀ pid, resolve_prompt (stop_server st sid) sid pid d
       = (stop_server st sid, Except.error (sessionNotFoundMsg sid))) := by
  have hltE : eidx < st.endpoints.length := getIdx_lt_length _ _ _ hep
  have hstop : stop_server st sid =
      { st with
          registry := eraseA st.registry sid,
          endpoints := setIdx st.endpoints eidx { ep with shutdownSent := true, pending := [] },
          slots := clearPending st.slots ep.pending,
          files := st.files.filter
            (fun f => f ≠ ep.mcp_config_path && f ≠ ep.mcp_script_path) } := by
    simp [stop_server, hreg, hep]
  have hregS : lookupA (stop_server st sid).registry sid = none := by
    rw [hstop]; exact lookupA_eraseA_self _ _
  refine ⟨hregS, ?_, ?_, ?_, ?_, ?_⟩
  · rw [hstop]; exact getIdx_setIdx_self _ _ _ hltE
  · intro pid sidx sl hq hsq
    have hmem : sidx ∈ ep.pending.map Prod.snd := lookupA_mem_keys _ _ _ hq
    have hdrop : getIdx (stop_server st sid).slots sidx
        = some { sl with sender := SenderSt.dropped } := by
      rw [hstop]
      show getIdx (clearPending st.slots ep.pending) sidx = _
      rw [clearPending_getIdx ep.pending st.slots sidx sl hsq]
      simp [hmem]
    exact ⟨hdrop, fun halive => by simp [timeout_fireable, hdrop, halive],
      timeout_cleanup_snd _ _ _⟩
  · rw [hstop]
    simp [List.mem_filter]
  · rw [hstop]
    simp [List.mem_filter]
  · intro pid
    simp [resolve_prompt, hregS]

/-- `stAP` after its launch artifacts were generated and recorded: files on
disk and paths stored in the registry entry. -/
def stAF : SysState :=
  set_mcp_paths (generate_mcp_files stAP "A").1 "A"
    (generate_mcp_files stAP "A").2.1 (generate_mcp_files stAP "A").2.2

/-- Endpoint 0 of `stAF`: prompt "p1" pending, file paths recorded. -/
def epAF : EndpointObj :=
  { port := 4000, pending := [("p1", 0)], sessionId := "A",
    mcp_config_path := "opcode-mcp-A.json",
    mcp_script_path := "opcode-mcp-server-A.js", shutdownSent := false }

/-- Witness for C3 at a concrete state: stopping session "A" with prompt "p1"
suspended and generated files on disk. -/
theorem stop_drains_pendings_witness :
    (lookupA stAF.registry "A" = some 0 ∧
     getIdx stAF.endpoints 0 = some epAF) ∧
    (lookupA (stop_server stAF "A").registry "A" = none ∧
     getIdx (stop_server stAF "A").endpoints 0
       = some { epAF with shutdownSent := true, pending := [] } ∧
     (∀ pid sidx sl, lookupA epAF.pending pid = some sidx →
        getIdx stAF.slots sidx = some sl →
        getIdx (stop_server stAF "A").slots sidx
          = some { sl with sender := SenderSt.dropped } ∧
        (sl.receiverAlive = true →
           timeout_fireable (stop_server stAF "A") sidx false = true) ∧
        (timeout_cleanup (timeout_fire (stop_server stAF "A") sidx) 0 pid).2
          = Except.ok timeoutDeny) ∧
     epAF.mcp_config_path ∉ (stop_server stAF "A").files ∧
     epAF.mcp_script_path ∉ (stop_server stAF "A").files ∧
     (∀ pid, resolve_prompt (stop_server stAF "A") "A" pid denyW
        = (stop_server stAF "A", Except.error (sessionNotFoundMsg "A")))) :=
  ⟨⟨by decide, by decide⟩,
   stop_drains_pendings stAF "A" 0 epAF denyW (by decide) (by decide)⟩

/-! ### The pending-table invariant (C5) -/

theorem getIdx_setIdx_self_eq {α : Type} (l : List α) (n : Nat) (b x : α)
    (h : getIdx (setIdx l n b) n = some x) : x = b := by
  induction l generalizing n with
  | nil => simp [setIdx, getIdx] at h
  | cons a rest ih =>
    cases n with
    | zero =>
      have hx := h
      simp [setIdx, getIdx] at hx
      exact hx.symm
    | succ m => exact ih m (by simpa [setIdx, getIdx] using h)

theorem getIdx_setIdx_some {α : Type} (l : List α) (n m : Nat) (b x : α)
    (h : getIdx (setIdx l n b) m = some x) :
    (m = n ∧ x = b) ∨ (m ≠ n ∧ getIdx l m = some x) := by
  by_cases hm : m = n
  · subst hm
    exact Or.inl ⟨rfl, getIdx_setIdx_self_eq l m b x h⟩
  · right
    rw [getIdx_setIdx_ne _ _ _ _ hm] at h
    exact ⟨hm, h⟩

/-- Pending tables are well formed: prompt ids are unique per table, every
entry's slot exists and still holds its sender, and no two entries anywhere
share a slot — each table entry corresponds to exactly one outstanding oneshot
sender, i.e. to exactly one in-flight request suspended on it. -/
def TableOK (st : SysState) : Prop :=
  (∀ eidx ep, getIdx st.endpoints eidx = some ep → (ep.pending.map Prod.fst).Nodup) ∧
  (∀ eidx ep q, getIdx st.endpoints eidx = some ep → q ∈ ep.pending →
     ∃ sl, getIdx st.slots q.2 = some sl ∧ sl.sender = SenderSt.held) ∧
  (∀ e1 ep1 q1 e2 ep2 q2,
     getIdx st.endpoints e1 = some ep1 → q1 ∈ ep1.pending →
     getIdx st.endpoints e2 = some ep2 → q2 ∈ ep2.pending →
     q1.2 = q2.2 → e1 = e2 ∧ q1 = q2)

theorem tableOK_congr (st st' : SysState)
    (he : st'.endpoints = st.endpoints) (hs : st'.slots = st.slots)
    (h : TableOK st) : TableOK st' := by
  rw [TableOK, he, hs]
  exact h

theorem tableOK_start (st : SysState) (sid : String) (port : Nat)
    (h : TableOK st) : TableOK (start_server st sid port).1 := by
  obtain ⟨h1, h2, h3⟩ := h
  refine ⟨?_, ?_, ?_⟩
  · intro eidx ep hep
    rcases getIdx_append_some _ _ _ _ hep with hold | ⟨_, hnew⟩
    · exact h1 _ _ hold
    · simp [hnew]
  · intro eidx ep q hep hq
    rcases getIdx_append_some _ _ _ _ hep with hold | ⟨_, hnew⟩
    · exact h2 _ _ _ hold hq
    · rw [hnew] at hq; simp at hq
  · intro e1 ep1 q1 e2 ep2 q2 hep1 hq1 hep2 hq2 hqq
    rcases getIdx_append_some _ _ _ _ hep1 with hold1 | ⟨_, hnew1⟩
    · rcases getIdx_append_some _ _ _ _ hep2 with hold2 | ⟨_, hnew2⟩
      · exact h3 _ _ _ _ _ _ hold1 hq1 hold2 hq2 hqq
      · rw [hnew2] at hq2; simp at hq2
    · rw [hnew1] at hq1; simp at hq1

theorem tableOK_emit (st : SysState) (eidx : Nat) (pid : String)
    (req : PermissionRequest) (h : TableOK st) :
    TableOK (handle_emit st eidx pid req) := by
  cases hep : getIdx st.endpoints eidx with
  | none => exact tableOK_congr st _ (by simp [handle_emit, hep]) (by simp [handle_emit, hep]) h
  | some ep => exact tableOK_congr st _ (by simp [handle_emit, hep]) (by simp [handle_emit, hep]) h

theorem tableOK_generate (st : SysState) (sid : String) (h : TableOK st) :
    TableOK (generate_mcp_files st sid).1 :=
  tableOK_congr st _ (by simp [generate_mcp_files]) (by simp [generate_mcp_files]) h

theorem tableOK_fire (st : SysState) (sidx : Nat) (h : TableOK st) :
    TableOK (timeout_fire st sidx) := by
  obtain ⟨h1, h2, h3⟩ := h
  cases hs : getIdx st.slots sidx with
  | none => exact tableOK_congr st _ (by simp [timeout_fire, hs]) (by simp [timeout_fire, hs]) ⟨h1, h2, h3⟩
  | some sl =>
    have he : (timeout_fire st sidx).endpoints = st.endpoints := by simp [timeout_fire, hs]
    have hsl : (timeout_fire st sidx).slots
        = setIdx st.slots sidx { sl with receiverAlive := false } := by
      simp [timeout_fire, hs]
    refine ⟨fun eidx ep hep => h1 _ _ (he ▸ hep), ?_, ?_⟩
    · intro eidx ep q hep hq
      rw [he] at hep
      obtain ⟨sl0, hsl0, hheld⟩ := h2 _ _ _ hep hq
      rw [hsl]
      by_cases hqs : q.2 = sidx
      · rw [hqs] at hsl0
        have hse : sl0 = sl := Option.some.inj (hsl0.symm.trans hs)
        refine ⟨{ sl with receiverAlive := false }, ?_, hse ▸ hheld⟩
        rw [hqs]
        exact getIdx_setIdx_self _ _ _ (getIdx_lt_length _ _ _ hs)
      · rw [getIdx_setIdx_ne _ _ _ _ hqs]
        exact ⟨sl0, hsl0, hheld⟩
    · intro e1 ep1 q1 e2 ep2 q2 hep1 hq1 hep2 hq2 hqq
      rw [he] at hep1 hep2
      exact h3 _ _ _ _ _ _ hep1 hq1 hep2 hq2 hqq

/-- Replacing the endpoint at `eidx` by one whose pending list is a
sub-collection (with keys still unique), slots untouched, keeps the invariant. -/
theorem tableOK_set_endpoint (st : SysState) (eidx : Nat) (ep ep1 : EndpointObj)
    (hep : getIdx st.endpoints eidx = some ep)
    (hsub : ∀ q, q ∈ ep1.pending → q ∈ ep.pending)
    (hnd : (ep1.pending.map Prod.fst).Nodup)
    (h : TableOK st) :
    TableOK { st with endpoints := setIdx st.endpoints eidx ep1 } := by
  obtain ⟨h1, h2, h3⟩ := h
  refine ⟨?_, ?_, ?_⟩
  · intro e epx hx
    rcases getIdx_setIdx_some _ _ _ _ _ hx with ⟨he, hb⟩ | ⟨hne, hold⟩
    · subst hb; exact hnd
    · exact h1 _ _ hold
  · intro e epx q hx hq
    rcases getIdx_setIdx_some _ _ _ _ _ hx with ⟨he, hb⟩ | ⟨hne, hold⟩
    · subst hb; exact h2 _ _ _ hep (hsub q hq)
    · exact h2 _ _ _ hold hq
  · intro e1 ep1x q1 e2 ep2x q2 hx1 hq1 hx2 hq2 hqq
    rcases getIdx_setIdx_some _ _ _ _ _ hx1 with ⟨he1, hb1⟩ | ⟨hne1, hold1⟩ <;>
      rcases getIdx_setIdx_some _ _ _ _ _ hx2 with ⟨he2, hb2⟩ | ⟨hne2, hold2⟩
    · subst hb1; subst hb2
      have := h3 _ _ _ _ _ _ hep (hsub q1 hq1) hep (hsub q2 hq2) hqq
      exact ⟨he1.trans he2.symm, this.2⟩
    · subst hb1
      have := h3 _ _ _ _ _ _ hep (hsub q1 hq1) hold2 hq2 hqq
      exact absurd this.1.symm hne2
    · subst hb2
      have := h3 _ _ _ _ _ _ hold1 hq1 hep (hsub q2 hq2) hqq
      exact absurd this.1 hne1
    · exact h3 _ _ _ _ _ _ hold1 hq1 hold2 hq2 hqq

theorem tableOK_set_paths (st : SysState) (sid : String) (c s : String)
    (h : TableOK st) : TableOK (set_mcp_paths st sid c s) := by
  cases hreg : lookupA st.registry sid with
  | none => simpa [set_mcp_paths, hreg] using h
  | some eidx =>
    cases hep : getIdx st.endpoints eidx with
    | none => simpa [set_mcp_paths, hreg, hep] using h
    | some ep =>
      have hr : set_mcp_paths st sid c s =
          { st with endpoints := setIdx st.endpoints eidx { ep with mcp_config_path := c, mcp_script_path := s } } := by
        simp [set_mcp_paths, hreg, hep]
      rw [hr]
      exact tableOK_set_endpoint st eidx ep _ hep (fun q hq => hq) (h.1 eidx ep hep) h

theorem tableOK_rekey (st : SysState) (old_id new_id : String)
    (h : TableOK st) : TableOK (rekey_server st old_id new_id) := by
  cases hreg : lookupA st.registry old_id with
  | none => simpa [rekey_server, hreg] using h
  | some eidx =>
    cases hep : getIdx st.endpoints eidx with
    | none =>
      refine tableOK_congr st _ ?_ ?_ h <;> simp [rekey_server, hreg, hep]
    | some ep =>
      have hr : (rekey_server st old_id new_id).endpoints
          = setIdx st.endpoints eidx { ep with sessionId := new_id } := by
        simp [rekey_server, hreg, hep]
      have hs : (rekey_server st old_id new_id).slots = st.slots := by
        simp [rekey_server, hreg, hep]
      exact tableOK_congr
        { st with endpoints := setIdx st.endpoints eidx { ep with sessionId := new_id } }
        (rekey_server st old_id new_id) hr hs
        (tableOK_set_endpoint st eidx ep _ hep (fun q hq => hq) (h.1 eidx ep hep) h)

theorem tableOK_cleanup (st : SysState) (eidx : Nat) (pid : String)
    (h : TableOK st) : TableOK (timeout_cleanup st eidx pid).1 := by
  cases hep : getIdx st.endpoints eidx with
  | none => simpa [timeout_cleanup, hep] using h
  | some ep =>
    have hr : (timeout_cleanup st eidx pid).1 =
        { st with endpoints := setIdx st.endpoints eidx { ep with pending := eraseA ep.pending pid } } := by
      simp [timeout_cleanup, hep]
    rw [hr]
    exact tableOK_set_endpoint st eidx ep _ hep
      (fun q hq => ((mem_eraseA _ _ _).mp hq).1)
      (keys_nodup_eraseA _ _ (h.1 _ _ hep)) h

/-- Removing a table entry and overwriting its (now unreferenced) slot keeps
the invariant: by slot-injectivity no remaining entry points at `sidx`. -/
theorem tableOK_remove_entry (st : SysState) (eidx sidx : Nat) (ep : EndpointObj)
    (pid : String) (slNew : Slot)
    (hep : getIdx st.endpoints eidx = some ep)
    (hpd : lookupA ep.pending pid = some sidx)
    (h : TableOK st) :
    TableOK { st with
        endpoints := setIdx st.endpoints eidx { ep with pending := eraseA ep.pending pid },
        slots := setIdx st.slots sidx slNew } := by
  obtain ⟨h1, h2, h3⟩ := h
  have hmem : (pid, sidx) ∈ ep.pending := lookupA_some_mem _ _ _ hpd
  have hOK1 : TableOK { st with
      endpoints := setIdx st.endpoints eidx { ep with pending := eraseA ep.pending pid } } :=
    tableOK_set_endpoint st eidx ep _ hep (fun q hq => ((mem_eraseA _ _ _).mp hq).1)
      (keys_nodup_eraseA _ _ (h1 eidx ep hep)) ⟨h1, h2, h3⟩
  obtain ⟨k1, k2, k3⟩ := hOK1
  refine ⟨k1, ?_, k3⟩
  intro e epx q hx hq
  have hqs : q.2 ≠ sidx := by
    intro hc
    rcases getIdx_setIdx_some _ _ _ _ _ hx with ⟨he, hb⟩ | ⟨hne, hold⟩
    · subst hb
      obtain ⟨hqm, hqk⟩ := (mem_eraseA _ _ _).mp hq
      have := h3 _ _ _ _ _ _ hep hqm hep hmem hc
      exact hqk (by rw [this.2])
    · have := h3 _ _ _ _ _ _ hold hq hep hmem hc
      exact hne this.1
  show ∃ sl, getIdx (setIdx st.slots sidx slNew) q.2 = some sl ∧ sl.sender = SenderSt.held
  rw [getIdx_setIdx_ne _ _ _ _ hqs]
  exact k2 _ _ _ hx hq

/-- Inserting a fresh entry pointing at the fresh slot index
`st.slots.length` keeps the invariant, provided the new slot heap holds a
fresh held sender there and is unchanged at every slot still referenced. -/
theorem tableOK_insert_aux (st : SysState) (eidx : Nat) (pid : String)
    (ep : EndpointObj) (slots2 : List Slot)
    (hep : getIdx st.endpoints eidx = some ep)
    (hsNew : getIdx slots2 st.slots.length
       = some { sender := SenderSt.held, receiverAlive := true })
    (hsKeep : ∀ (e : Nat) (epx : EndpointObj) (q : String × Nat),
       getIdx st.endpoints e = some epx → q ∈ epx.pending →
       ¬ (e = eidx ∧ q.1 = pid) → getIdx slots2 q.2 = getIdx st.slots q.2)
    (h : TableOK st) :
    TableOK { st with
        endpoints := setIdx st.endpoints eidx
          { ep with pending := insertA ep.pending pid st.slots.length },
        slots := slots2 } := by
  obtain ⟨h1, h2, h3⟩ := h
  have hlt2 : ∀ (e : Nat) (epx : EndpointObj) (q : String × Nat),
      getIdx st.endpoints e = some epx → q ∈ epx.pending → q.2 < st.slots.length := by
    intro e epx q he hq
    obtain ⟨sl, hsl, _⟩ := h2 _ _ _ he hq
    exact getIdx_lt_length _ _ _ hsl
  refine ⟨?_, ?_, ?_⟩
  · intro e epx hx
    rcases getIdx_setIdx_some _ _ _ _ _ hx with ⟨he, hb⟩ | ⟨hne, hold⟩
    · subst hb; exact keys_nodup_insertA _ _ _ (h1 eidx ep hep)
    · exact h1 _ _ hold
  · intro e epx q hx hq
    rcases getIdx_setIdx_some _ _ _ _ _ hx with ⟨he, hb⟩ | ⟨hne, hold⟩
    · subst hb
      rcases (mem_insertA _ _ _ _).mp hq with hnew | ⟨hqm, hqk⟩
      · subst hnew
        exact ⟨_, hsNew, rfl⟩
      · rw [hsKeep eidx ep q hep hqm (fun hc => hqk hc.2)]
        exact h2 _ _ _ hep hqm
    · rw [hsKeep e epx q hold hq (fun hc => hne hc.1)]
      exact h2 _ _ _ hold hq
  · intro e1 ep1x q1 e2 ep2x q2 hx1 hq1 hx2 hq2 hqq
    rcases getIdx_setIdx_some _ _ _ _ _ hx1 with ⟨he1, hb1⟩ | ⟨hne1, hold1⟩ <;>
      rcases getIdx_setIdx_some _ _ _ _ _ hx2 with ⟨he2, hb2⟩ | ⟨hne2, hold2⟩
    · subst hb1; subst hb2
      rcases (mem_insertA _ _ _ _).mp hq1 with hnew1 | ⟨hm1, hk1⟩ <;>
        rcases (mem_insertA _ _ _ _).mp hq2 with hnew2 | ⟨hm2, hk2⟩
      · exact ⟨he1.trans he2.symm, hnew1.trans hnew2.symm⟩
      · subst hnew1
        have := hlt2 _ _ _ hep hm2
        exact absurd hqq (by simp; omega)
      · subst hnew2
        have := hlt2 _ _ _ hep hm1
        exact absurd hqq (by simp; omega)
      · have := h3 _ _ _ _ _ _ hep hm1 hep hm2 hqq
        exact ⟨he1.trans he2.symm, this.2⟩
    · subst hb1
      rcases (mem_insertA _ _ _ _).mp hq1 with hnew1 | ⟨hm1, hk1⟩
      · subst hnew1
        have := hlt2 _ _ _ hold2 hq2
        exact absurd hqq (by simp; omega)
      · have := h3 _ _ _ _ _ _ hep hm1 hold2 hq2 hqq
        exact absurd this.1.symm hne2
    · subst hb2
      rcases (mem_insertA _ _ _ _).mp hq2 with hnew2 | ⟨hm2, hk2⟩
      · subst hnew2
        have := hlt2 _ _ _ hold1 hq1
        exact absurd hqq (by simp; omega)
      · have := h3 _ _ _ _ _ _ hold1 hq1 hep hm2 hqq
        exact absurd this.1 hne1
    · exact h3 _ _ _ _ _ _ hold1 hq1 hold2 hq2 hqq

theorem tableOK_insert (st : SysState) (eidx : Nat) (pid : String)
    (h : TableOK st) : TableOK (handle_insert st eidx pid).1 := by
  cases hep : getIdx st.endpoints eidx with
  | none =>
    have hr : (handle_insert st eidx pid).1 =
        { st with slots := st.slots ++ [{ sender := SenderSt.held, receiverAlive := true }] } := by
      simp [handle_insert, hep]
    rw [hr]
    obtain ⟨h1, h2, h3⟩ := h
    refine ⟨h1, ?_, h3⟩
    intro e epx q hx hq
    obtain ⟨sl, hsl, hh⟩ := h2 _ _ _ hx hq
    refine ⟨sl, ?_, hh⟩
    rw [getIdx_append_lt _ _ _ (getIdx_lt_length _ _ _ hsl)]
    exact hsl
  | some ep =>
    cases hpd : lookupA ep.pending pid with
    | none =>
      have hr : (handle_insert st eidx pid).1 =
          { st with
              endpoints := setIdx st.endpoints eidx
                { ep with pending := insertA ep.pending pid st.slots.length },
              slots := st.slots ++ [{ sender := SenderSt.held, receiverAlive := true }] } := by
        simp [handle_insert, hep, hpd]
      rw [hr]
      refine tableOK_insert_aux st eidx pid ep _ hep (getIdx_append_last _ _) ?_ h
      intro e epx q he hq hne
      obtain ⟨sl, hsl, _⟩ := h.2.1 _ _ _ he hq
      rw [getIdx_append_lt _ _ _ (getIdx_lt_length _ _ _ hsl)]
    | some oldS =>
      have hmem : (pid, oldS) ∈ ep.pending := lookupA_some_mem _ _ _ hpd
      obtain ⟨oldSl, holdSl, holdHeld⟩ := h.2.1 _ _ _ hep hmem
      have hltOld : oldS < st.slots.length := getIdx_lt_length _ _ _ holdSl
      have hgetOld : getIdx
          (st.slots ++ [{ sender := SenderSt.held, receiverAlive := true }]) oldS
          = some oldSl := by
        rw [getIdx_append_lt _ _ _ hltOld]; exact holdSl
      have hr : (handle_insert st eidx pid).1 =
          { st with
              endpoints := setIdx st.endpoints eidx
                { ep with pending := insertA ep.pending pid st.slots.length },
              slots := setIdx
                (st.slots ++ [{ sender := SenderSt.held, receiverAlive := true }]) oldS
                { oldSl with sender := SenderSt.dropped } } := by
        simp [handle_insert, hep, hpd, hgetOld]
      rw [hr]
      refine tableOK_insert_aux st eidx pid ep _ hep ?_ ?_ h
      · rw [getIdx_setIdx_ne _ _ _ _ (by omega : st.slots.length ≠ oldS)]
        exact getIdx_append_last _ _
      · intro e epx q he hq hne
        have hqs : q.2 ≠ oldS := by
          intro hc
          have := h.2.2 _ _ _ _ _ _ he hq hep hmem hc
          exact hne ⟨this.1, by rw [this.2]⟩
        obtain ⟨sl, hsl, _⟩ := h.2.1 _ _ _ he hq
        rw [getIdx_setIdx_ne _ _ _ _ hqs,
          getIdx_append_lt _ _ _ (getIdx_lt_length _ _ _ hsl)]

theorem tableOK_resolve (st : SysState) (sid pid : String) (d : PermissionResponse)
    (h : TableOK st) : TableOK (resolve_prompt st sid pid d).1 := by
  cases hreg : lookupA st.registry sid with
  | none => simpa [resolve_prompt, hreg] using h
  | some eidx =>
    cases hep : getIdx st.endpoints eidx with
    | none => simpa [resolve_prompt, hreg, hep] using h
    | some ep =>
      cases hpd : lookupA ep.pending pid with
      | none => simpa [resolve_prompt, hreg, hep, hpd] using h
      | some sidx =>
        cases hsl : getIdx st.slots sidx with
        | none =>
          have hr : (resolve_prompt st sid pid d).1 =
              { st with endpoints := setIdx st.endpoints eidx { ep with pending := eraseA ep.pending pid } } := by
            simp [resolve_prompt, hreg, hep, hpd, hsl]
          rw [hr]
          exact tableOK_set_endpoint st eidx ep _ hep
            (fun q hq => ((mem_eraseA _ _ _).mp hq).1)
            (keys_nodup_eraseA _ _ (h.1 eidx ep hep)) h
        | some sl =>
          by_cases hra : sl.receiverAlive = true
          · have hr : (resolve_prompt st sid pid d).1 =
                { st with
                    endpoints := setIdx st.endpoints eidx { ep with pending := eraseA ep.pending pid },
                    slots := setIdx st.slots sidx { sl with sender := SenderSt.sent d } } := by
              simp [resolve_prompt, hreg, hep, hpd, hsl, hra]
            rw [hr]
            exact tableOK_remove_entry st eidx sidx ep pid _ hep hpd h
          · have hr : (resolve_prompt st sid pid d).1 =
                { st with
                    endpoints := setIdx st.endpoints eidx { ep with pending := eraseA ep.pending pid },
                    slots := setIdx st.slots sidx { sl with sender := SenderSt.dropped } } := by
              simp [resolve_prompt, hreg, hep, hpd, hsl, hra]
            rw [hr]
            exact tableOK_remove_entry st eidx sidx ep pid _ hep hpd h

theorem tableOK_stop (st : SysState) (sid : String) (h : TableOK st) :
    TableOK (stop_server st sid) := by
  obtain ⟨h1, h2, h3⟩ := h
  cases hreg : lookupA st.registry sid with
  | none =>
    rw [show stop_server st sid = st from by simp [stop_server, hreg]]
    exact ⟨h1, h2, h3⟩
  | some eidx =>
    cases hep : getIdx st.endpoints eidx with
    | none =>
      refine tableOK_congr st _ ?_ ?_ ⟨h1, h2, h3⟩ <;> simp [stop_server, hreg, hep]
    | some ep =>
      have hr : stop_server st sid =
          { st with
              registry := eraseA st.registry sid,
              endpoints := setIdx st.endpoints eidx { ep with shutdownSent := true, pending := [] },
              slots := clearPending st.slots ep.pending,
              files := st.files.filter
                (fun f => f ≠ ep.mcp_config_path && f ≠ ep.mcp_script_path) } := by
        simp [stop_server, hreg, hep]
      rw [hr]
      refine ⟨?_, ?_, ?_⟩
      · intro e epx hx
        rcases getIdx_setIdx_some _ _ _ _ _ hx with ⟨he, hb⟩ | ⟨hne, hold⟩
        · subst hb; simp
        · exact h1 _ _ hold
      · intro e epx q hx hq
        rcases getIdx_setIdx_some _ _ _ _ _ hx with ⟨he, hb⟩ | ⟨hne, hold⟩
        · subst hb; simp at hq
        · obtain ⟨sl, hsl, hh⟩ := h2 _ _ _ hold hq
          have hnm : q.2 ∉ ep.pending.map Prod.snd := by
            intro hc
            rcases List.mem_map.mp hc with ⟨q1, hq1, heq⟩
            have := h3 _ _ _ _ _ _ hold hq hep hq1 heq.symm
            exact hne this.1
          show ∃ sl0, getIdx (clearPending st.slots ep.pending) q.2 = some sl0
            ∧ sl0.sender = SenderSt.held
          rw [clearPending_getIdx ep.pending st.slots q.2 sl hsl]
          simp [hnm]
          exact hh
      · intro e1 ep1x q1 e2 ep2x q2 hx1 hq1 hx2 hq2 hqq
        rcases getIdx_setIdx_some _ _ _ _ _ hx1 with ⟨he1, hb1⟩ | ⟨hne1, hold1⟩
        · subst hb1; simp at hq1
        · rcases getIdx_setIdx_some _ _ _ _ _ hx2 with ⟨he2, hb2⟩ | ⟨hne2, hold2⟩
          · subst hb2; simp at hq2
          · exact h3 _ _ _ _ _ _ hold1 hq1 hold2 hq2 hqq

theorem tableOK_st0 : TableOK st0 := by
  refine ⟨?_, ?_, ?_⟩
  · intro e ep hx
    simp [st0, getIdx] at hx
  · intro e ep q hx hq
    simp [st0, getIdx] at hx
  · intro e1 ep1 q1 e2 ep2 q2 hx1 hq1 hx2 hq2 hqq
    simp [st0, getIdx] at hx1

/-- C5: every operation preserves the pending-table invariant — each entry's
slot exists and still holds its sender, prompt ids are unique per table, and
no two entries share a slot, i.e. each entry corresponds to exactly one
suspended request; moreover a handled request inserts exactly one fresh entry
keyed by its fresh prompt id at its own fresh slot (other entries untouched),
and that entry is removed whichever outcome occurs: external resolution, or
the timeout / dropped-sender branch. -/
theorem pending_table_invariant (st : SysState) (h : TableOK st) :
    (∀ sid port, TableOK (start_server st sid port).1) ∧
    (∀ eidx pid, TableOK (handle_insert st eidx pid).1) ∧
    (∀ eidx pid req, TableOK (handle_emit st eidx pid req)) ∧
    (∀ sid, TableOK (generate_mcp_files st sid).1) ∧
    (∀ sid c s, TableOK (set_mcp_paths st sid c s)) ∧
    (∀ sidx, TableOK (timeout_fire st sidx)) ∧
    (∀ eidx pid, TableOK (timeout_cleanup st eidx pid).1) ∧
    (∀ sid pid d, TableOK (resolve_prompt st sid pid d).1) ∧
    (∀ sid, TableOK (stop_server st sid)) ∧
    (∀ old_id new_id, TableOK (rekey_server st old_id new_id)) ∧
    (∀ eidx ep pid, getIdx st.endpoints eidx = some ep →
       lookupA ep.pending pid = none →
       (handle_insert st eidx pid).2 = st.slots.length ∧
       (∃ ep1, getIdx (handle_insert st eidx pid).1.endpoints eidx = some ep1 ∧
          lookupA ep1.pending pid = some st.slots.length ∧
          (∀ pid1, pid1 ≠ pid → lookupA ep1.pending pid1 = lookupA ep.pending pid1) ∧
          getIdx (handle_insert st eidx pid).1.slots st.slots.length
            = some { sender := SenderSt.held, receiverAlive := true })) ∧
    (∀ sid eidx ep pid sidx d, lookupA st.registry sid = some eidx →
       getIdx st.endpoints eidx = some ep → lookupA ep.pending pid = some sidx →
       (∃ ep1, getIdx (resolve_prompt st sid pid d).1.endpoints eidx = some ep1 ∧
          lookupA ep1.pending pid = none) ∧
       (∃ ep2, getIdx (timeout_cleanup (timeout_fire st sidx) eidx pid).1.endpoints eidx
          = some ep2 ∧ lookupA ep2.pending pid = none)) := by
  refine ⟨fun sid port => tableOK_start st sid port h,
    fun eidx pid => tableOK_insert st eidx pid h,
    fun eidx pid req => tableOK_emit st eidx pid req h,
    fun sid => tableOK_generate st sid h,
    fun sid c s => tableOK_set_paths st sid c s h,
    fun sidx => tableOK_fire st sidx h,
    fun eidx pid => tableOK_cleanup st eidx pid h,
    fun sid pid d => tableOK_resolve st sid pid d h,
    fun sid => tableOK_stop st sid h,
    fun old_id new_id => tableOK_rekey st old_id new_id h, ?_, ?_⟩
  · intro eidx ep pid hep hpd
    have hltE : eidx < st.endpoints.length := getIdx_lt_length _ _ _ hep
    have hr : (handle_insert st eidx pid).1 =
        { st with
            endpoints := setIdx st.endpoints eidx
              { ep with pending := insertA ep.pending pid st.slots.length },
            slots := st.slots ++ [{ sender := SenderSt.held, receiverAlive := true }] } := by
      simp [handle_insert, hep, hpd]
    refine ⟨by simp [handle_insert, hep], ?_⟩
    refine ⟨{ ep with pending := insertA ep.pending pid st.slots.length }, ?_, ?_, ?_, ?_⟩
    · rw [hr]; exact getIdx_setIdx_self _ _ _ hltE
    · exact lookupA_insertA_self _ _ _
    · intro pid1 hne
      exact lookupA_insertA_ne _ _ _ _ hne
    · rw [hr]; exact getIdx_append_last _ _
  · intro sid eidx ep pid sidx d hreg hep hpd
    have hltE : eidx < st.endpoints.length := getIdx_lt_length _ _ _ hep
    constructor
    · have hepsR : (resolve_prompt st sid pid d).1.endpoints
          = setIdx st.endpoints eidx { ep with pending := eraseA ep.pending pid } := by
        cases hsl : getIdx st.slots sidx with
        | none => simp [resolve_prompt, hreg, hep, hpd, hsl]
        | some sl =>
          by_cases hra : sl.receiverAlive = true <;>
            simp [resolve_prompt, hreg, hep, hpd, hsl, hra]
      refine ⟨{ ep with pending := eraseA ep.pending pid }, ?_, lookupA_eraseA_self _ _⟩
      rw [hepsR]
      exact getIdx_setIdx_self _ _ _ hltE
    · have hfe : (timeout_fire st sidx).endpoints = st.endpoints := by
        cases hsl : getIdx st.slots sidx with
        | none => simp [timeout_fire, hsl]
        | some sl => simp [timeout_fire, hsl]
      have hepF : getIdx (timeout_fire st sidx).endpoints eidx = some ep := by
        rw [hfe]; exact hep
      have hcl : (timeout_cleanup (timeout_fire st sidx) eidx pid).1.endpoints
          = setIdx (timeout_fire st sidx).endpoints eidx
              { ep with pending := eraseA ep.pending pid } := by
        simp [timeout_cleanup, hepF]
      refine ⟨{ ep with pending := eraseA ep.pending pid }, ?_, lookupA_eraseA_self _ _⟩
      rw [hcl]
      exact getIdx_setIdx_self _ _ _ (by rw [hfe]; exact hltE)

/-- Witness for C5 at a concrete state: `stAP` (reached from the empty broker
by `start_server` then `handle_insert`) satisfies the invariant, and the
theorem's conclusions hold of it. -/
theorem pending_table_invariant_witness :
    TableOK stAP ∧
    ((∀ sid port, TableOK (start_server stAP sid port).1) ∧
     (∀ eidx pid, TableOK (handle_insert stAP eidx pid).1) ∧
     (∀ eidx pid req, TableOK (handle_emit stAP eidx pid req)) ∧
     (∀ sid, TableOK (generate_mcp_files stAP sid).1) ∧
     (∀ sid c s, TableOK (set_mcp_paths stAP sid c s)) ∧
     (∀ sidx, TableOK (timeout_fire stAP sidx)) ∧
     (∀ eidx pid, TableOK (timeout_cleanup stAP eidx pid).1) ∧
     (∀ sid pid d, TableOK (resolve_prompt stAP sid pid d).1) ∧
     (∀ sid, TableOK (stop_server stAP sid)) ∧
     (∀ old_id new_id, TableOK (rekey_server stAP old_id new_id)) ∧
     (∀ eidx ep pid, getIdx stAP.endpoints eidx = some ep →
        lookupA ep.pending pid = none →
        (handle_insert stAP eidx pid).2 = stAP.slots.length ∧
        (∃ ep1, getIdx (handle_insert stAP eidx pid).1.endpoints eidx = some ep1 ∧
           lookupA ep1.pending pid = some stAP.slots.length ∧
           (∀ pid1, pid1 ≠ pid → lookupA ep1.pending pid1 = lookupA ep.pending pid1) ∧
           getIdx (handle_insert stAP eidx pid).1.slots stAP.slots.length
             = some { sender := SenderSt.held, receiverAlive := true })) ∧
     (∀ sid eidx ep pid sidx d, lookupA stAP.registry sid = some eidx →
        getIdx stAP.endpoints eidx = some ep → lookupA ep.pending pid = some sidx →
        (∃ ep1, getIdx (resolve_prompt stAP sid pid d).1.endpoints eidx = some ep1 ∧
           lookupA ep1.pending pid = none) ∧
        (∃ ep2, getIdx (timeout_cleanup (timeout_fire stAP sidx) eidx pid).1.endpoints eidx
           = some ep2 ∧ lookupA ep2.pending pid = none))) :=
  have hAP : TableOK stAP := tableOK_insert stA 0 "p1" (tableOK_start st0 "A" 4000 tableOK_st0)
  ⟨hAP, pending_table_invariant stAP hAP⟩
